import Mathlib

/-!
# Verification of the movie-ticket seat-booking subsystem

A shallow embedding of the seat-booking core (DummyRedis lock store, domain
model, and `BookingSystem.bookSeats`) together with proofs about its claimed
properties.  Machine times (`Date.now()` values, TTL) are modelled as `Nat`;
the JS `Map` backing the lock store is modelled as an association list with
first-match lookup; the `uuid`/`crypto.randomUUID` identifiers are passed in
as explicit parameters (only their values matter, not their generation).
Each `async` seat-booking call is additionally modelled as a small-step
program so that interleavings of two concurrent calls can be analysed; the
atomic steps are exactly the code segments between `await` points of the
source (every `DummyRedis` operation is one step, and the try-block commit
section, which contains no `await`, is one step).
-/

namespace MovieTicketBooking

/-- `const LOCK_TIMEOUT = 3000;` -/
def LOCK_TIMEOUT : Nat := 3000

/-- One value of the `DummyRedis` store map: `{value: string, expiresAt: number}`. -/
structure LockEntry where
  value : String
  expiresAt : Nat
deriving DecidableEq

/-- The `DummyRedis` private `store : Map<string, {value, expiresAt}>`,
modelled as an association list with at most one binding per key in any
store the code ever builds; lookup is first-match like `Map.get`. -/
abbrev Store := List (String × LockEntry)

/-- JS `Map.get`. -/
def mapGet : Store → String → Option LockEntry
  | [], _ => none
  | e :: rest, k => if e.1 = k then some e.2 else mapGet rest k

/-- JS `Map.set` (replace the existing binding, else append). -/
def mapSet : Store → String → LockEntry → Store
  | [], k, v => [(k, v)]
  | e :: rest, k, v => if e.1 = k then (k, v) :: rest else e :: mapSet rest k v

/-- JS `Map.delete`. -/
def mapDelete : Store → String → Store
  | [], _ => []
  | e :: rest, k => if e.1 = k then mapDelete rest k else e :: mapDelete rest k

/-- `DummyRedis.set(key, value)`: fails (returning the store unchanged) iff a
live entry for `key` exists, i.e. one with `expiresAt > now`; otherwise
records `{value, expiresAt: now + LOCK_TIMEOUT}` and succeeds. -/
def DummyRedis.set (store : Store) (now : Nat) (key value : String) :
    Bool × Store :=
  match mapGet store key with
  | some existing =>
      if now < existing.expiresAt then (false, store)
      else (true, mapSet store key ⟨value, now + LOCK_TIMEOUT⟩)
  | none => (true, mapSet store key ⟨value, now + LOCK_TIMEOUT⟩)

/-- `DummyRedis.del(key)`. -/
def DummyRedis.del (store : Store) (key : String) : Store :=
  mapDelete store key

/-- `acquireLock(key, value)` — returns `redisClient.set(...) === true`
together with the updated store. -/
def acquireLock (store : Store) (now : Nat) (key value : String) :
    Bool × Store :=
  DummyRedis.set store now key value

/-- `releaseLock(key)` — `redisClient.del(key)`. -/
def releaseLock (store : Store) (key : String) : Store :=
  DummyRedis.del store key

/-- `enum SeatStatus`. -/
inductive SeatStatus where
  | AVAILABLE
  | BOOKED
deriving DecidableEq

/-- `enum BookingStatus`. -/
inductive BookingStatus where
  | PENDING
  | CONFIRMED
  | CANCELLED
deriving DecidableEq

/-- `class Seat` (its mutable `status` field is carried by value; the shared
screen seat list lives in the system state below). -/
structure Seat where
  id : String
  seatNumber : String
  status : SeatStatus
deriving DecidableEq

/-- `Seat.book()`: throws `'Seat is already booked'` when the seat is
already `BOOKED`, else sets the status to `BOOKED`. -/
def Seat.book (s : Seat) : Except String Seat :=
  if s.status = SeatStatus.BOOKED then Except.error "Seat is already booked"
  else Except.ok { s with status := SeatStatus.BOOKED }

/-- `Seat.release()`. -/
def Seat.release (s : Seat) : Seat :=
  { s with status := SeatStatus.AVAILABLE }

/-- `class Show` — only the fields `bookSeats` reads are kept (`movie` and
the screen's name are inert); the screen's mutable seat array is the
`seats` component of `BSState`. -/
structure Show where
  id : String
  pricePerSeat : Nat
deriving DecidableEq

/-- `class Booking` (`user`/`show` object references are represented by
their ids; `seats` holds the seat references passed to the constructor). -/
structure Booking where
  id : String
  userId : String
  showId : String
  seats : List Seat
  totalPrice : Nat
  status : BookingStatus
deriving DecidableEq

/-- `Booking.confirm()` — unconditionally sets the status to `CONFIRMED`. -/
def Booking.confirm (b : Booking) : Booking :=
  { b with status := BookingStatus.CONFIRMED }

/-- `Booking.cancel()` — unconditionally sets the status to `CANCELLED` and
releases every held seat. -/
def Booking.cancel (b : Booking) : Booking :=
  { b with status := BookingStatus.CANCELLED,
           seats := b.seats.map Seat.release }

/-- The typed outcomes of a failed `bookSeats` call: the
`Seat ... is currently being booked` throw (spec: `SeatLockContentionError`),
the `One or more seats already booked.` throw (spec: `SeatUnavailableError`),
and the `Seat is already booked` throw escaping from `Seat.book()` inside
the commit loop. -/
inductive BookErr where
  | SeatLockContentionError (seatNumber : String)
  | SeatUnavailableError
  | SeatAlreadyBookedError
deriving DecidableEq

instance {ε α : Type} [DecidableEq ε] [DecidableEq α] :
    DecidableEq (Except ε α) := fun a b =>
  match a, b with
  | Except.error e, Except.error e' =>
      if h : e = e' then Decidable.isTrue (by rw [h])
      else Decidable.isFalse (fun hh => by cases hh; exact h rfl)
  | Except.error _, Except.ok _ => Decidable.isFalse (fun hh => by cases hh)
  | Except.ok _, Except.error _ => Decidable.isFalse (fun hh => by cases hh)
  | Except.ok x, Except.ok y =>
      if h : x = y then Decidable.isTrue (by rw [h])
      else Decidable.isFalse (fun hh => by cases hh; exact h rfl)

/-- The mutable state shared by all `bookSeats` calls: the `DummyRedis`
store, the show's `screen.seats` array, the `BookingSystem` bookings list,
and the current clock (`Date.now()`). -/
structure BSState where
  store : Store
  seats : List Seat
  bookings : List Booking
  now : Nat
deriving DecidableEq

/-- `show.screen.seats.filter((seat) => seatIds.includes(seat.id))`. -/
def selectedSeats (seats : List Seat) (seatIds : List String) : List Seat :=
  seats.filter (fun s => seatIds.contains s.id)

/-- `` `seat_lock:${show.id}:${seat.id}` `` — the key used by the acquire
loop and by the contention-failure cleanup loop. -/
def lockKey (showId seatId : String) : String :=
  "seat_lock:" ++ showId ++ ":" ++ seatId

/-- `` `seat_lock:${seat.id}` `` — the key used by the `finally` release
loop (note: it omits the show id, unlike `lockKey`). -/
def finallyLockKey (seatId : String) : String :=
  "seat_lock:" ++ seatId

/-- The cleanup loop of the contention-failure path:
`for (const s of selectedSeats) await releaseLock(`seat_lock:show.id:s.id`)`. -/
def releaseSelLocks (showId : String) (sel : List Seat) (store : Store) :
    Store :=
  sel.foldl (fun st s => releaseLock st (lockKey showId s.id)) store

/-- The `finally` loop:
`for (const seat of selectedSeats) await releaseLock(`seat_lock:seat.id`)`. -/
def finallyRelease (sel : List Seat) (store : Store) : Store :=
  sel.foldl (fun st s => releaseLock st (finallyLockKey s.id)) store

/-- The lock-acquisition loop of `bookSeats`: tries each selected seat in
order; on the first failure it runs the cleanup loop over all selected
seats and reports the contended seat.  `allSel` is the full selected list
(used by the cleanup loop), `l` the seats still to acquire. -/
def acquireLoop (showId token : String) (now : Nat) (allSel : List Seat) :
    List Seat → Store → Store × Option Seat
  | [], store => (store, none)
  | s :: rest, store =>
      let r := acquireLock store now (lockKey showId s.id) token
      if r.1 then acquireLoop showId token now allSel rest r.2
      else (releaseSelLocks showId allSel r.2, some s)

/-- `selectedSeats.forEach(seat => seat.book())`, acting on the shared seat
array: processes the seats in array order, mutating each selected seat in
place; if `Seat.book()` throws, the seats mutated so far keep their new
status and the rest are untouched (the `Bool` is `false` when a throw
occurred). -/
def bookEachSelected (p : Seat → Bool) : List Seat → List Seat × Bool
  | [] => ([], true)
  | s :: rest =>
      if p s then
        match s.book with
        | Except.error _ => (s :: rest, false)
        | Except.ok s' =>
            let r := bookEachSelected p rest
            (s' :: r.1, r.2)
      else
        let r := bookEachSelected p rest
        (s :: r.1, r.2)

/-- `BookingSystem.bookSeats(user, show, seatIds)` run to completion with no
interleaved concurrent activity.  `userId`, `bookingId` and `lockToken`
stand for `user.id`, `crypto.randomUUID()` and `uuidv4()`. -/
def BookingSystem.bookSeats (sh : Show) (userId bookingId lockToken : String)
    (seatIds : List String) (st : BSState) :
    Except BookErr Booking × BSState :=
  let sel := selectedSeats st.seats seatIds
  let acq := acquireLoop sh.id lockToken st.now sel sel st.store
  match acq.2 with
  | some c =>
      (Except.error (BookErr.SeatLockContentionError c.seatNumber),
       { st with store := acq.1 })
  | none =>
      if sel.any (fun s => decide (s.status ≠ SeatStatus.AVAILABLE)) then
        (Except.error BookErr.SeatUnavailableError,
         { st with store := finallyRelease sel acq.1 })
      else
        let booked := bookEachSelected (fun s => seatIds.contains s.id) st.seats
        if booked.2 then
          let b := Booking.confirm
            { id := bookingId, userId := userId, showId := sh.id,
              seats := selectedSeats booked.1 seatIds,
              totalPrice := sel.length * sh.pricePerSeat,
              status := BookingStatus.PENDING }
          (Except.ok b,
           { st with seats := booked.1,
                     bookings := st.bookings ++ [b],
                     store := finallyRelease sel acq.1 })
        else
          (Except.error BookErr.SeatAlreadyBookedError,
           { st with seats := booked.1,
                     store := finallyRelease sel acq.1 })

/-! ## Basic lemmas about the lock store -/

theorem mapGet_mapSet_self (m : Store) (k : String) (v : LockEntry) :
    mapGet (mapSet m k v) k = some v := by
  induction m with
  | nil => simp [mapGet, mapSet]
  | cons e rest ih =>
      by_cases h : e.1 = k
      · simp [mapSet, h, mapGet]
      · simp [mapSet, h, mapGet, ih]

theorem mapGet_mapSet_ne (m : Store) (k k' : String) (v : LockEntry)
    (h : k' ≠ k) : mapGet (mapSet m k' v) k = mapGet m k := by
  induction m with
  | nil => simp [mapGet, mapSet, h]
  | cons e rest ih =>
      by_cases he : e.1 = k'
      · simp [mapSet, he, mapGet, h]
      · simp only [mapSet, he, if_false, mapGet, ih]

theorem mapGet_mapDelete (m : Store) (k k' : String) :
    mapGet (mapDelete m k') k = if k' = k then none else mapGet m k := by
  induction m with
  | nil => simp [mapDelete, mapGet]
  | cons e rest ih =>
      by_cases he : e.1 = k'
      · rw [mapDelete, if_pos he, ih]
        by_cases hk : k' = k
        · simp [hk]
        · have hek : e.1 ≠ k := fun h => hk (he ▸ h)
          simp [hk, mapGet, hek]
      · rw [mapDelete, if_neg he, mapGet]
        by_cases hek : e.1 = k
        · have hk : ¬ k' = k := fun h => he (h ▸ hek)
          rw [if_pos hek, if_neg hk, mapGet, if_pos hek]
        · rw [if_neg hek, ih]
          by_cases hk : k' = k
          · rw [if_pos hk, if_pos hk]
          · rw [if_neg hk, if_neg hk, mapGet, if_neg hek]

/-- Characterization of one `acquireLock` call: it either succeeds, writing
the fresh entry, because no live entry existed; or fails, mutating nothing,
because a live entry existed. -/
theorem acquireLock_cases (store : Store) (now : Nat) (key value : String) :
    ((acquireLock store now key value).1 = true
      ∧ (acquireLock store now key value).2
          = mapSet store key ⟨value, now + LOCK_TIMEOUT⟩
      ∧ (mapGet store key = none
          ∨ ∃ e, mapGet store key = some e ∧ e.expiresAt ≤ now))
    ∨ ((acquireLock store now key value).1 = false
      ∧ (acquireLock store now key value).2 = store
      ∧ ∃ e, mapGet store key = some e ∧ now < e.expiresAt) := by
  unfold acquireLock DummyRedis.set
  cases hg : mapGet store key with
  | none => exact Or.inl ⟨rfl, rfl, Or.inl rfl⟩
  | some e =>
      by_cases hlt : now < e.expiresAt
      · refine Or.inr ⟨?_, ?_, e, rfl, hlt⟩ <;> simp [hlt]
      · refine Or.inl ⟨?_, ?_, Or.inr ⟨e, rfl, Nat.le_of_not_lt hlt⟩⟩ <;>
          simp [hlt]

theorem releaseSelLocks_cons (showId : String) (s : Seat) (l : List Seat)
    (m : Store) :
    releaseSelLocks showId (s :: l) m
      = releaseSelLocks showId l (releaseLock m (lockKey showId s.id)) := rfl

theorem releaseSelLocks_none (showId : String) (l : List Seat) (m : Store)
    (k : String) (h : mapGet m k = none) :
    mapGet (releaseSelLocks showId l m) k = none := by
  induction l generalizing m with
  | nil => exact h
  | cons s rest ih =>
      rw [releaseSelLocks_cons]
      apply ih
      rw [releaseLock, DummyRedis.del, mapGet_mapDelete]
      by_cases hk : lockKey showId s.id = k
      · simp [hk]
      · simp [hk, h]

theorem mapGet_releaseSelLocks_of_mem (showId : String) (s : Seat) :
    ∀ (l : List Seat) (m : Store), s ∈ l →
      mapGet (releaseSelLocks showId l m) (lockKey showId s.id) = none := by
  intro l
  induction l with
  | nil => intro m hs; cases hs
  | cons a rest ih =>
      intro m hs
      rw [releaseSelLocks_cons]
      rcases List.mem_cons.mp hs with rfl | hs'
      · apply releaseSelLocks_none
        rw [releaseLock, DummyRedis.del, mapGet_mapDelete, if_pos rfl]
      · exact ih _ hs'

/-! ## Lemmas about the acquisition loop -/

theorem acquireLoop_nil (showId tok : String) (now : Nat)
    (allSel : List Seat) (m : Store) :
    acquireLoop showId tok now allSel [] m = (m, none) := rfl

theorem acquireLoop_cons (showId tok : String) (now : Nat)
    (allSel : List Seat) (s : Seat) (rest : List Seat) (m : Store) :
    acquireLoop showId tok now allSel (s :: rest) m
      = if (acquireLock m now (lockKey showId s.id) tok).1
        then acquireLoop showId tok now allSel rest
              (acquireLock m now (lockKey showId s.id) tok).2
        else (releaseSelLocks showId allSel
              (acquireLock m now (lockKey showId s.id) tok).2, some s) := rfl

theorem acquireLoop_some_mem (showId tok : String) (now : Nat)
    (allSel : List Seat) :
    ∀ (l : List Seat) (m : Store) (c : Seat),
      (acquireLoop showId tok now allSel l m).2 = some c → c ∈ l := by
  intro l
  induction l with
  | nil =>
      intro m c h
      rw [acquireLoop_nil] at h
      cases h
  | cons s rest ih =>
      intro m c h
      rw [acquireLoop_cons] at h
      by_cases hr : (acquireLock m now (lockKey showId s.id) tok).1 = true
      · rw [if_pos hr] at h
        exact List.mem_cons_of_mem _ (ih _ _ h)
      · rw [if_neg (by simpa using hr)] at h
        cases h
        exact List.mem_cons_self _ _

theorem acquireLoop_fail_store (showId tok : String) (now : Nat)
    (allSel : List Seat) :
    ∀ (l : List Seat) (m : Store),
      (acquireLoop showId tok now allSel l m).2.isSome = true →
      ∃ m0, (acquireLoop showId tok now allSel l m).1
              = releaseSelLocks showId allSel m0 := by
  intro l
  induction l with
  | nil => intro m h; rw [acquireLoop_nil] at h; cases h
  | cons s rest ih =>
      intro m h
      rw [acquireLoop_cons] at h ⊢
      by_cases hr : (acquireLock m now (lockKey showId s.id) tok).1 = true
      · rw [if_pos hr] at h ⊢
        exact ih _ h
      · rw [if_neg (by simpa using hr)]
        exact ⟨_, rfl⟩

theorem acquireLoop_fails_of_live (showId tok : String) (now : Nat)
    (allSel : List Seat) :
    ∀ (l : List Seat) (m : Store),
      (∃ s ∈ l, ∃ e, mapGet m (lockKey showId s.id) = some e
          ∧ now < e.expiresAt) →
      (acquireLoop showId tok now allSel l m).2.isSome = true := by
  intro l
  induction l with
  | nil => rintro m ⟨s, hs, _⟩; cases hs
  | cons a rest ih =>
      rintro m ⟨s, hs, e, he, hexp⟩
      rw [acquireLoop_cons]
      by_cases hr : (acquireLock m now (lockKey showId a.id) tok).1 = true
      · rw [if_pos hr]
        rcases acquireLock_cases m now (lockKey showId a.id) tok with
          ⟨_, hst, hfree⟩ | ⟨hfalse, _, _⟩
        · -- the successful set cannot have hit a live key
          have hne : lockKey showId s.id ≠ lockKey showId a.id := by
            intro hkeq
            rw [hkeq] at he
            rcases hfree with hnone | ⟨e', he', hle⟩
            · rw [he] at hnone; cases hnone
            · rw [he] at he'
              cases he'
              exact absurd hexp (Nat.not_lt.mpr hle)
          have hs' : s ∈ rest := by
            rcases List.mem_cons.mp hs with rfl | h'
            · exact absurd rfl hne
            · exact h'
          apply ih
          refine ⟨s, hs', e, ?_, hexp⟩
          rw [hst, mapGet_mapSet_ne _ _ _ _ (Ne.symm hne)]
          exact he
        · rw [hr] at hfalse; cases hfalse
      · rw [if_neg (by simpa using hr)]
        rfl

/-! ## Lemmas about the commit loop -/

theorem seat_book_ok (s s' : Seat) (h : s.book = Except.ok s') :
    s' = { s with status := SeatStatus.BOOKED }
      ∧ s.status ≠ SeatStatus.BOOKED := by
  unfold Seat.book at h
  by_cases hb : s.status = SeatStatus.BOOKED
  · rw [if_pos hb] at h; cases h
  · rw [if_neg hb] at h
    exact ⟨(Except.ok.injEq _ _ ▸ h).symm, hb⟩

theorem bookEachSelected_forall₂ (p : Seat → Bool) :
    ∀ l : List Seat,
      List.Forall₂
        (fun s s' => s'.id = s.id ∧ s'.seatNumber = s.seatNumber
          ∧ (s.status = SeatStatus.BOOKED → s'.status = SeatStatus.BOOKED))
        l (bookEachSelected p l).1 := by
  intro l
  induction l with
  | nil => exact List.Forall₂.nil
  | cons s rest ih =>
      cases hp : p s with
      | false =>
          simp only [bookEachSelected, hp, Bool.false_eq_true, if_false]
          exact List.Forall₂.cons ⟨rfl, rfl, fun h => h⟩ ih
      | true =>
          simp only [bookEachSelected, hp, if_pos]
          cases hb : s.book with
          | error msg =>
              exact List.Forall₂.cons ⟨rfl, rfl, fun h => h⟩
                (List.forall₂_same.mpr fun x _ => ⟨rfl, rfl, fun h => h⟩)
          | ok s' =>
              obtain ⟨rfl, _⟩ := seat_book_ok s s' hb
              exact List.Forall₂.cons ⟨rfl, rfl, fun _ => rfl⟩ ih

theorem bookEachSelected_of_all_avail (p : Seat → Bool) :
    ∀ l : List Seat,
      (∀ s ∈ l, p s = true → s.status = SeatStatus.AVAILABLE) →
      bookEachSelected p l
        = (l.map (fun s =>
            if p s then { s with status := SeatStatus.BOOKED } else s), true) := by
  intro l
  induction l with
  | nil => intro _; simp [bookEachSelected]
  | cons s rest ih =>
      intro h
      have hrest := ih fun t ht hpt => h t (List.mem_cons_of_mem _ ht) hpt
      cases hp : p s with
      | false => simp [bookEachSelected, hp, hrest]
      | true =>
          have hav : s.status = SeatStatus.AVAILABLE :=
            h s (List.mem_cons_self _ _) hp
          have hbook : s.book = Except.ok { s with status := SeatStatus.BOOKED } := by
            unfold Seat.book
            rw [if_neg (by rw [hav]; intro hcontra; cases hcontra)]
          simp [bookEachSelected, hp, hbook, hrest]

theorem forall₂_mem_exists {α β : Type} {r : α → β → Prop} :
    ∀ {l : List α} {l' : List β}, List.Forall₂ r l l' →
      ∀ {a}, a ∈ l → ∃ b ∈ l', r a b := by
  intro l l' h
  induction h with
  | nil => intro a ha; cases ha
  | cons hr _ ih =>
      intro a ha
      rcases List.mem_cons.mp ha with rfl | ha'
      · exact ⟨_, List.mem_cons_self _ _, hr⟩
      · rcases ih ha' with ⟨b, hb, hrb⟩
        exact ⟨b, List.mem_cons_of_mem _ hb, hrb⟩

/-- Bridge from the re-validation check of `bookSeats` to a statement over
the whole seat array: if the check passes, every selected seat is
`AVAILABLE`. -/
theorem validation_false_all_avail {seats : List Seat} {ids : List String}
    (h : (selectedSeats seats ids).any
          (fun s => decide (s.status ≠ SeatStatus.AVAILABLE)) = false) :
    ∀ s ∈ seats, ids.contains s.id = true → s.status = SeatStatus.AVAILABLE := by
  intro s hs hid
  by_contra hne
  have hmem : s ∈ selectedSeats seats ids :=
    List.mem_filter.mpr ⟨hs, hid⟩
  have : (selectedSeats seats ids).any
      (fun s => decide (s.status ≠ SeatStatus.AVAILABLE)) = true :=
    List.any_eq_true.mpr ⟨s, hmem, by simpa using hne⟩
  rw [h] at this
  cases this

/-! ## Claims about the lock service (C5, C9) -/

/-- Claim C5: for every key, token and time `now`, lock acquisition succeeds
(returns `true` and records an entry expiring at `now + LOCK_TIMEOUT`) if
and only if no entry for the key exists or the existing entry's expiry has
already passed (`expiresAt ≤ now`, the reading under which `DummyRedis.set`
treats the entry as dead); otherwise it returns `false` and leaves the lock
store unchanged — the condition never inspects the stored token, so this
holds even when the live entry was recorded with the caller's own token. -/
theorem acquireLock_succeeds_iff (store : Store) (now : Nat)
    (key token : String) :
    ((acquireLock store now key token).1 = true ↔
      mapGet store key = none
        ∨ ∃ e, mapGet store key = some e ∧ e.expiresAt ≤ now)
    ∧ ((acquireLock store now key token).1 = true →
        mapGet (acquireLock store now key token).2 key
          = some ⟨token, now + LOCK_TIMEOUT⟩)
    ∧ ((acquireLock store now key token).1 = false →
        (acquireLock store now key token).2 = store) := by
  rcases acquireLock_cases store now key token with
    ⟨h1, h2, h3⟩ | ⟨h1, h2, h3⟩
  · refine ⟨⟨fun _ => h3, fun _ => h1⟩, fun _ => ?_, fun hf => ?_⟩
    · rw [h2]; exact mapGet_mapSet_self _ _ _
    · rw [h1] at hf; cases hf
  · refine ⟨⟨fun ht => ?_, fun hcond => ?_⟩, fun ht => ?_, fun _ => h2⟩
    · rw [h1] at ht; cases ht
    · obtain ⟨e, he, hexp⟩ := h3
      rcases hcond with hnone | ⟨e', he', hle⟩
      · rw [he] at hnone; cases hnone
      · rw [he] at he'; cases he'
        exact absurd hexp (Nat.not_lt.mpr hle)
    · rw [h1] at ht; cases ht

/-- Claim C5 witness: with a live entry (expiry 5, caller's own token, at
time 3) the acquire fails and mutates nothing. -/
theorem acquireLock_succeeds_iff_instance :
    (acquireLock [("k", ⟨"t", 5⟩)] 3 "k" "t").1 = false
    ∧ (acquireLock [("k", ⟨"t", 5⟩)] 3 "k" "t").2 = [("k", ⟨"t", 5⟩)] := by
  have h := acquireLock_succeeds_iff [("k", ⟨"t", 5⟩)] 3 "k" "t"
  have hfalse : (acquireLock [("k", ⟨"t", 5⟩)] 3 "k" "t").1 = false := by
    cases hb : (acquireLock [("k", ⟨"t", 5⟩)] 3 "k" "t").1 with
    | false => rfl
    | true =>
        rcases h.1.mp hb with hnone | ⟨e, he, hle⟩
        · exact absurd hnone (by decide)
        · have : e = ⟨"t", 5⟩ := by
            have hg : mapGet [("k", ⟨"t", 5⟩)] "k" = some ⟨"t", 5⟩ := by decide
            rw [hg] at he; cases he; rfl
          rw [this] at hle
          exact absurd hle (by decide)
  exact ⟨hfalse, h.2.2 hfalse⟩

/-- Claim C9: a lock acquired at time `t` (entry expiring at
`t + LOCK_TIMEOUT`) and never explicitly released becomes acquirable again
by any token at any time strictly after `t + LOCK_TIMEOUT`: the later
acquire succeeds. -/
theorem lock_ttl_recovery (store : Store) (key tok tok2 : String)
    (t t2 : Nat) (hacq : (acquireLock store t key tok).1 = true)
    (h2 : t + LOCK_TIMEOUT < t2) :
    (acquireLock (acquireLock store t key tok).2 t2 key tok2).1 = true := by
  rcases acquireLock_cases store t key tok with
    ⟨_, hst, _⟩ | ⟨h1, _, _⟩
  · have hg : mapGet (acquireLock store t key tok).2 key
        = some ⟨tok, t + LOCK_TIMEOUT⟩ := by
      rw [hst]; exact mapGet_mapSet_self _ _ _
    rcases acquireLock_cases (acquireLock store t key tok).2 t2 key tok2 with
      ⟨h1', _, _⟩ | ⟨_, _, e, he, hexp⟩
    · exact h1'
    · rw [hg] at he
      cases he
      exact absurd hexp (Nat.not_lt.mpr (Nat.le_of_lt h2))
  · rw [hacq] at h1; cases h1

/-- Claim C9 witness: a lock taken at time 0 on a fresh store is
re-acquirable by another token at time 3001. -/
theorem lock_ttl_recovery_instance :
    (acquireLock (acquireLock [] 0 "k" "t1").2 3001 "k" "t2").1 = true :=
  lock_ttl_recovery [] "k" "t1" "t2" 0 3001 (by decide) (by decide)

/-! ## Claim about the Booking state machine (C4) -/

/-- Claim C4 counterexample: a `Booking` whose status is `CANCELLED` is not
terminal — a subsequent `confirm()` moves it back to `CONFIRMED`, so the
claimed transition system (Cancelled terminal, no transition
Cancelled → Confirmed) does not hold for the code. -/
theorem booking_cancelled_not_terminal_cex :
    (Booking.confirm (Booking.cancel
        ⟨"b1", "u1", "show1", [], 0, BookingStatus.PENDING⟩)).status
      ≠ BookingStatus.CANCELLED
    ∧ (Booking.cancel
        ⟨"b1", "u1", "show1", [], 0, BookingStatus.PENDING⟩).status
      = BookingStatus.CANCELLED := by
  exact ⟨by decide, by decide⟩

/-- Claim C4 amended: `confirm()` unconditionally sets the status to
`CONFIRMED` and `cancel()` unconditionally sets it to `CANCELLED`, from any
state.  Hence Pending → Confirmed (confirm), Pending → Cancelled and
Confirmed → Cancelled (cancel) are admitted as claimed, and no transition
leaves Confirmed except to Cancelled; but Cancelled is not terminal:
`confirm()` on a Cancelled booking yields Confirmed. -/
theorem booking_transitions_unconditional (b : Booking) :
    (Booking.confirm b).status = BookingStatus.CONFIRMED
    ∧ (Booking.cancel b).status = BookingStatus.CANCELLED
    ∧ (b.status = BookingStatus.CONFIRMED →
        (Booking.confirm b).status = BookingStatus.CONFIRMED
        ∧ (Booking.cancel b).status = BookingStatus.CANCELLED)
    ∧ (b.status = BookingStatus.CANCELLED →
        (Booking.confirm b).status = BookingStatus.CONFIRMED) := by
  exact ⟨rfl, rfl, fun _ => ⟨rfl, rfl⟩, fun _ => rfl⟩

/-! ## Claim about the lock-acquisition order (C6) -/

/-- Claim C6: the acquisition order of every `bookSeats` call is the
screen's fixed seat-array order restricted to the requested ids, a total
order shared by all callers on the same show; consequently, for any two
calls, the seats (and hence lock keys) common to both attempts are acquired
in the same relative order — restricting either call's acquisition sequence
to the seats also selected by the other yields the same sequence. -/
theorem lock_acquisition_order_shared (showId : String) (seats : List Seat)
    (ids1 ids2 : List String) :
    (selectedSeats seats ids1).filter (fun s => ids2.contains s.id)
      = (selectedSeats seats ids2).filter (fun s => ids1.contains s.id)
    ∧ ((selectedSeats seats ids1).filter (fun s => ids2.contains s.id)).map
        (fun s => lockKey showId s.id)
      = ((selectedSeats seats ids2).filter (fun s => ids1.contains s.id)).map
        (fun s => lockKey showId s.id) := by
  have h : (selectedSeats seats ids1).filter (fun s => ids2.contains s.id)
      = (selectedSeats seats ids2).filter (fun s => ids1.contains s.id) := by
    unfold selectedSeats
    rw [List.filter_filter, List.filter_filter]
    exact List.filter_congr fun a _ => Bool.and_comm _ _
  exact ⟨h, by rw [h]⟩

/-! ## Path characterizations of a single `bookSeats` call -/

/-- Contention path: if the acquisition loop fails at seat `c`, the call
returns the contention error naming `c` and the post-cleanup store. -/
theorem bookSeats_contention_char (sh : Show)
    (userId bookingId lockToken : String) (seatIds : List String)
    (st : BSState) (c : Seat)
    (hacq : (acquireLoop sh.id lockToken st.now
        (selectedSeats st.seats seatIds) (selectedSeats st.seats seatIds)
        st.store).2 = some c) :
    BookingSystem.bookSeats sh userId bookingId lockToken seatIds st
      = (Except.error (BookErr.SeatLockContentionError c.seatNumber),
        { st with store := (acquireLoop sh.id lockToken st.now
            (selectedSeats st.seats seatIds) (selectedSeats st.seats seatIds)
            st.store).1 }) := by
  simp only [BookingSystem.bookSeats, hacq]

/-- Re-validation failure path: all locks acquired but some selected seat
is not `AVAILABLE` — the call returns the unavailable error, leaves seats
and bookings unchanged, and runs the (wrong-key) `finally` release loop. -/
theorem bookSeats_unavailable_char (sh : Show)
    (userId bookingId lockToken : String) (seatIds : List String)
    (st : BSState)
    (hacq : (acquireLoop sh.id lockToken st.now
        (selectedSeats st.seats seatIds) (selectedSeats st.seats seatIds)
        st.store).2 = none)
    (hval : (selectedSeats st.seats seatIds).any
        (fun s => decide (s.status ≠ SeatStatus.AVAILABLE)) = true) :
    BookingSystem.bookSeats sh userId bookingId lockToken seatIds st
      = (Except.error BookErr.SeatUnavailableError,
        { st with store := (finallyRelease (selectedSeats st.seats seatIds)
            (acquireLoop sh.id lockToken st.now
              (selectedSeats st.seats seatIds)
              (selectedSeats st.seats seatIds) st.store).1) }) := by
  simp only [BookingSystem.bookSeats, hacq]
  split
  · rfl
  · next hfalse => exact absurd hval hfalse

/-- Success path: all locks acquired and every selected seat `AVAILABLE` —
the call books each selected seat in the shared array, appends one
confirmed Booking, and runs the (wrong-key) `finally` release loop. -/
theorem bookSeats_success_char (sh : Show)
    (userId bookingId lockToken : String) (seatIds : List String)
    (st : BSState)
    (hacq : (acquireLoop sh.id lockToken st.now
        (selectedSeats st.seats seatIds) (selectedSeats st.seats seatIds)
        st.store).2 = none)
    (hval : (selectedSeats st.seats seatIds).any
        (fun s => decide (s.status ≠ SeatStatus.AVAILABLE)) = false) :
    BookingSystem.bookSeats sh userId bookingId lockToken seatIds st
      = (Except.ok (Booking.confirm
          { id := bookingId, userId := userId, showId := sh.id,
            seats := selectedSeats (st.seats.map (fun s =>
              if seatIds.contains s.id then
                { s with status := SeatStatus.BOOKED } else s)) seatIds,
            totalPrice := (selectedSeats st.seats seatIds).length
              * sh.pricePerSeat,
            status := BookingStatus.PENDING }),
        { st with
            seats := st.seats.map (fun s =>
              if seatIds.contains s.id then
                { s with status := SeatStatus.BOOKED } else s),
            bookings := st.bookings ++ [Booking.confirm
              { id := bookingId, userId := userId, showId := sh.id,
                seats := selectedSeats (st.seats.map (fun s =>
                  if seatIds.contains s.id then
                    { s with status := SeatStatus.BOOKED } else s)) seatIds,
                totalPrice := (selectedSeats st.seats seatIds).length
                  * sh.pricePerSeat,
                status := BookingStatus.PENDING }],
            store := (finallyRelease (selectedSeats st.seats seatIds)
              (acquireLoop sh.id lockToken st.now
                (selectedSeats st.seats seatIds)
                (selectedSeats st.seats seatIds) st.store).1) }) := by
  have hbook := bookEachSelected_of_all_avail
    (fun s => seatIds.contains s.id) st.seats (validation_false_all_avail hval)
  simp only [BookingSystem.bookSeats, hacq, hbook]
  split
  · next htrue => rw [hval] at htrue; cases htrue
  · rfl

/-! ## Claims about a single `bookSeats` call (C3, C8, C10, C1, C7) -/

/-- Claim C3: every `bookSeats` call is all-or-nothing — either it returns a
Booking and then every seat of the screen whose id was requested was
`AVAILABLE` before the call and is `BOOKED` after it, with exactly one
`CONFIRMED` Booking covering the selected seats appended to the booking
store; or it returns an error and both the seat statuses and the booking
store are completely unchanged. -/
theorem bookSeats_atomic (sh : Show) (userId bookingId lockToken : String)
    (seatIds : List String) (st : BSState) :
    (∃ b st2,
        BookingSystem.bookSeats sh userId bookingId lockToken seatIds st
          = (Except.ok b, st2)
        ∧ (∀ s ∈ st.seats, seatIds.contains s.id = true →
            s.status = SeatStatus.AVAILABLE)
        ∧ st2.seats = st.seats.map (fun s =>
            if seatIds.contains s.id then { s with status := SeatStatus.BOOKED }
            else s)
        ∧ st2.bookings = st.bookings ++ [b]
        ∧ b.status = BookingStatus.CONFIRMED
        ∧ b.seats = selectedSeats st2.seats seatIds)
    ∨ (∃ e st2,
        BookingSystem.bookSeats sh userId bookingId lockToken seatIds st
          = (Except.error e, st2)
        ∧ st2.seats = st.seats ∧ st2.bookings = st.bookings) := by
  rcases hacq : (acquireLoop sh.id lockToken st.now
      (selectedSeats st.seats seatIds) (selectedSeats st.seats seatIds)
      st.store).2 with _ | c
  · cases hval : (selectedSeats st.seats seatIds).any
        (fun s => decide (s.status ≠ SeatStatus.AVAILABLE)) with
    | true =>
        exact Or.inr ⟨BookErr.SeatUnavailableError, _,
          bookSeats_unavailable_char sh userId bookingId lockToken seatIds st
            hacq hval, rfl, rfl⟩
    | false =>
        exact Or.inl ⟨_, _,
          bookSeats_success_char sh userId bookingId lockToken seatIds st
            hacq hval, validation_false_all_avail hval, rfl, rfl, rfl, rfl⟩
  · exact Or.inr ⟨BookErr.SeatLockContentionError c.seatNumber, _,
      bookSeats_contention_char sh userId bookingId lockToken seatIds st c
        hacq, rfl, rfl⟩

/-- Claim C8: whenever `bookSeats` fails with `SeatLockContentionError`,
then by the time the call returns no lock entry remains for any selected
seat's key — in particular every lock the attempt had acquired is released
— and the error names the contended seat: the seat at which the
acquisition loop failed. -/
theorem bookSeats_contention_releases_all (sh : Show)
    (userId bookingId lockToken : String) (seatIds : List String)
    (st : BSState) (n : String)
    (h : (BookingSystem.bookSeats sh userId bookingId lockToken seatIds st).1
          = Except.error (BookErr.SeatLockContentionError n)) :
    (∀ s ∈ selectedSeats st.seats seatIds,
        mapGet (BookingSystem.bookSeats sh userId bookingId lockToken
            seatIds st).2.store (lockKey sh.id s.id) = none)
    ∧ ∃ c ∈ selectedSeats st.seats seatIds,
        n = c.seatNumber
        ∧ (acquireLoop sh.id lockToken st.now
            (selectedSeats st.seats seatIds) (selectedSeats st.seats seatIds)
            st.store).2 = some c := by
  rcases hacq : (acquireLoop sh.id lockToken st.now
      (selectedSeats st.seats seatIds) (selectedSeats st.seats seatIds)
      st.store).2 with _ | c
  · exfalso
    cases hval : (selectedSeats st.seats seatIds).any
        (fun s => decide (s.status ≠ SeatStatus.AVAILABLE)) with
    | true =>
        rw [bookSeats_unavailable_char sh userId bookingId lockToken seatIds
          st hacq hval] at h
        cases h
    | false =>
        rw [bookSeats_success_char sh userId bookingId lockToken seatIds
          st hacq hval] at h
        cases h
  · have hres := bookSeats_contention_char sh userId bookingId lockToken
      seatIds st c hacq
    have hn : n = c.seatNumber := by
      rw [hres] at h
      have h' : Except.error (BookErr.SeatLockContentionError c.seatNumber)
          = (Except.error (BookErr.SeatLockContentionError n) :
              Except BookErr Booking) := h
      injection h' with h''
      injection h'' with h3
      exact h3.symm
    refine ⟨?_, c, acquireLoop_some_mem _ _ _ _ _ _ _ hacq, hn, rfl⟩
    intro s hs
    rw [hres]
    obtain ⟨m0, hm0⟩ := acquireLoop_fail_store sh.id lockToken st.now
      (selectedSeats st.seats seatIds) (selectedSeats st.seats seatIds)
      st.store (by rw [hacq]; rfl)
    show mapGet (acquireLoop sh.id lockToken st.now
        (selectedSeats st.seats seatIds) (selectedSeats st.seats seatIds)
        st.store).1 (lockKey sh.id s.id) = none
    rw [hm0]
    exact mapGet_releaseSelLocks_of_mem _ _ _ _ hs

/-- Claim C8 witness: with seat A1's key held live by a foreign token at
call time, the call fails with contention on A1 and afterwards no entry
remains for A1's key. -/
theorem bookSeats_contention_releases_all_instance :
    mapGet (BookingSystem.bookSeats ⟨"show1", 300⟩ "u1" "b1" "tokA"
        ["s1", "s2"]
        ⟨[(lockKey "show1" "s1", ⟨"other", 5000⟩)],
          [⟨"s1", "A1", SeatStatus.AVAILABLE⟩,
           ⟨"s2", "A2", SeatStatus.AVAILABLE⟩], [], 0⟩).2.store
      (lockKey "show1" "s1") = none :=
  (bookSeats_contention_releases_all ⟨"show1", 300⟩ "u1" "b1" "tokA"
    ["s1", "s2"]
    ⟨[(lockKey "show1" "s1", ⟨"other", 5000⟩)],
      [⟨"s1", "A1", SeatStatus.AVAILABLE⟩,
       ⟨"s2", "A2", SeatStatus.AVAILABLE⟩], [], 0⟩ "A1" rfl).1
    ⟨"s1", "A1", SeatStatus.AVAILABLE⟩ (by decide)

/-- Claim C10: on the lock-contention failure path the cleanup loop calls
`releaseLock` on every selected seat's key, not only those this attempt
acquired: if some selected seat's key holds a live entry (recorded by any
token, e.g. a concurrent attempt's), the call fails with
`SeatLockContentionError` and that entry is deleted from the store. -/
theorem contention_cleanup_deletes_foreign_lock (sh : Show)
    (userId bookingId lockToken : String) (seatIds : List String)
    (st : BSState) (c : Seat) (e : LockEntry)
    (hc : c ∈ selectedSeats st.seats seatIds)
    (hlive : mapGet st.store (lockKey sh.id c.id) = some e)
    (hexp : st.now < e.expiresAt) :
    mapGet (BookingSystem.bookSeats sh userId bookingId lockToken
        seatIds st).2.store (lockKey sh.id c.id) = none
    ∧ ∃ n, (BookingSystem.bookSeats sh userId bookingId lockToken
        seatIds st).1 = Except.error (BookErr.SeatLockContentionError n) := by
  have hfail : (acquireLoop sh.id lockToken st.now
      (selectedSeats st.seats seatIds) (selectedSeats st.seats seatIds)
      st.store).2.isSome = true :=
    acquireLoop_fails_of_live sh.id lockToken st.now
      (selectedSeats st.seats seatIds) (selectedSeats st.seats seatIds)
      st.store ⟨c, hc, e, hlive, hexp⟩
  rcases Option.isSome_iff_exists.mp hfail with ⟨cf, hcf⟩
  have hres := bookSeats_contention_char sh userId bookingId lockToken
    seatIds st cf hcf
  constructor
  · rw [hres]
    obtain ⟨m0, hm0⟩ := acquireLoop_fail_store sh.id lockToken st.now
      (selectedSeats st.seats seatIds) (selectedSeats st.seats seatIds)
      st.store (by rw [hcf]; rfl)
    show mapGet (acquireLoop sh.id lockToken st.now
        (selectedSeats st.seats seatIds) (selectedSeats st.seats seatIds)
        st.store).1 (lockKey sh.id c.id) = none
    rw [hm0]
    exact mapGet_releaseSelLocks_of_mem _ _ _ _ hc
  · exact ⟨cf.seatNumber, by rw [hres]⟩

/-- Claim C10 witness: seat A2's key is held live by token `tokB`; the
attempt with token `tokA` fails and deletes `tokB`'s lock entry. -/
theorem contention_cleanup_deletes_foreign_lock_instance :
    mapGet (BookingSystem.bookSeats ⟨"show1", 300⟩ "u1" "b1" "tokA"
        ["s1", "s2"]
        ⟨[(lockKey "show1" "s2", ⟨"tokB", 9999⟩)],
          [⟨"s1", "A1", SeatStatus.AVAILABLE⟩,
           ⟨"s2", "A2", SeatStatus.AVAILABLE⟩], [], 0⟩).2.store
      (lockKey "show1" "s2") = none :=
  (contention_cleanup_deletes_foreign_lock ⟨"show1", 300⟩ "u1" "b1" "tokA"
    ["s1", "s2"]
    ⟨[(lockKey "show1" "s2", ⟨"tokB", 9999⟩)],
      [⟨"s1", "A1", SeatStatus.AVAILABLE⟩,
       ⟨"s2", "A2", SeatStatus.AVAILABLE⟩], [], 0⟩
    ⟨"s2", "A2", SeatStatus.AVAILABLE⟩ ⟨"tokB", 9999⟩
    (by decide) (by decide) (by decide)).1

/-- Claim C1 is violated by the code (code bug): after a *successful*
`bookSeats` call, the lock entry acquired under key
`seat_lock:show1:s1` is still present in the store — and still live, its
expiry lying strictly in the future of the call's clock — because the
`finally` block releases the key `seat_lock:s1` (missing the show id)
instead of the acquired key. -/
theorem bookSeats_success_leaves_lock_entry :
    (BookingSystem.bookSeats ⟨"show1", 300⟩ "u1" "b1" "tokA" ["s1"]
        ⟨[], [⟨"s1", "A1", SeatStatus.AVAILABLE⟩], [], 0⟩).1
      = Except.ok ⟨"b1", "u1", "show1", [⟨"s1", "A1", SeatStatus.BOOKED⟩],
          300, BookingStatus.CONFIRMED⟩
    ∧ mapGet (BookingSystem.bookSeats ⟨"show1", 300⟩ "u1" "b1" "tokA" ["s1"]
        ⟨[], [⟨"s1", "A1", SeatStatus.AVAILABLE⟩], [], 0⟩).2.store
        (lockKey "show1" "s1") = some ⟨"tokA", 3000⟩
    ∧ (BookingSystem.bookSeats ⟨"show1", 300⟩ "u1" "b1" "tokA" ["s1"]
        ⟨[], [⟨"s1", "A1", SeatStatus.AVAILABLE⟩], [], 0⟩).2.now
      < (3000 : Nat) :=
  ⟨rfl, by decide, by decide⟩

/-- Claim C7 is violated by the code (code bug): requesting the two seat
ids `s1` and `sX`, where `sX` resolves to no seat of the screen, returns a
successful Booking covering a single seat — fewer seats than the number of
requested seat ids, with no error. -/
theorem bookSeats_underbooks_unknown_ids :
    ∃ b, (BookingSystem.bookSeats ⟨"show1", 300⟩ "u1" "b1" "tokA"
        ["s1", "sX"]
        ⟨[], [⟨"s1", "A1", SeatStatus.AVAILABLE⟩,
          ⟨"s2", "A2", SeatStatus.AVAILABLE⟩,
          ⟨"s3", "A3", SeatStatus.AVAILABLE⟩], [], 0⟩).1 = Except.ok b
      ∧ b.seats.length < (["s1", "sX"] : List String).length :=
  ⟨⟨"b1", "u1", "show1", [⟨"s1", "A1", SeatStatus.BOOKED⟩], 300,
      BookingStatus.CONFIRMED⟩, rfl, by decide⟩

/-! ## Small-step model of concurrent `bookSeats` calls

One `bookSeats` call is an `async` function; its atomic units are the code
segments between `await` points.  Every `DummyRedis` operation
(`acquireLock`, `releaseLock`) is one step; the try-block commit section
(re-validation, `Seat.book()` loop, Booking construction, `confirm()`,
push) contains no `await` and is therefore a single atomic step.  The
program counter records which segment runs next; the selected-seat list is
recomputed from the shared seat array at each step, which is faithful
because the filter predicate reads only the immutable seat ids and every
step preserves the array's length, order and ids. -/

/-- The per-call values of one `bookSeats` invocation: `user.id`, the
`crypto.randomUUID()` booking id, the `uuidv4()` lock token and the
requested seat ids. -/
structure AttemptParams where
  userId : String
  bookingId : String
  lockToken : String
  seatIds : List String
deriving DecidableEq

/-- Program counter of one in-flight `bookSeats` call: acquiring the `k`-th
selected seat's lock; releasing the `k`-th selected seat's lock in the
contention cleanup loop (with the contended seat recorded for the throw);
releasing the `k`-th wrong key in the `finally` loop (with the pending
result); or returned. -/
inductive TPC where
  | acquiring (k : Nat)
  | cleanup (k : Nat) (contended : Seat)
  | finalize (k : Nat) (result : Except BookErr Booking)
  | done (result : Except BookErr Booking)
deriving DecidableEq

/-- One atomic step of one in-flight `bookSeats` call against the shared
state (a `done` call stutters). -/
def attemptStep (sh : Show) (ap : AttemptParams) (st : BSState) (pc : TPC) :
    BSState × TPC :=
  match pc with
  | TPC.acquiring k =>
      match (selectedSeats st.seats ap.seatIds)[k]? with
      | some s =>
          let r := acquireLock st.store st.now (lockKey sh.id s.id)
            ap.lockToken
          if r.1 then ({ st with store := r.2 }, TPC.acquiring (k + 1))
          else ({ st with store := r.2 }, TPC.cleanup 0 s)
      | none =>
          -- all locks acquired; the try-block commit section is atomic
          if (selectedSeats st.seats ap.seatIds).any
              (fun s => decide (s.status ≠ SeatStatus.AVAILABLE)) then
            (st, TPC.finalize 0 (Except.error BookErr.SeatUnavailableError))
          else
            let booked := bookEachSelected
              (fun s => ap.seatIds.contains s.id) st.seats
            if booked.2 then
              let b := Booking.confirm
                { id := ap.bookingId, userId := ap.userId, showId := sh.id,
                  seats := selectedSeats booked.1 ap.seatIds,
                  totalPrice := (selectedSeats st.seats ap.seatIds).length
                    * sh.pricePerSeat,
                  status := BookingStatus.PENDING }
              ({ st with seats := booked.1,
                         bookings := st.bookings ++ [b] },
                TPC.finalize 0 (Except.ok b))
            else
              ({ st with seats := booked.1 },
                TPC.finalize 0 (Except.error BookErr.SeatAlreadyBookedError))
  | TPC.cleanup k c =>
      match (selectedSeats st.seats ap.seatIds)[k]? with
      | some s =>
          ({ st with store := releaseLock st.store (lockKey sh.id s.id) },
            TPC.cleanup (k + 1) c)
      | none =>
          (st, TPC.done (Except.error
            (BookErr.SeatLockContentionError c.seatNumber)))
  | TPC.finalize k r =>
      match (selectedSeats st.seats ap.seatIds)[k]? with
      | some s =>
          ({ st with store := releaseLock st.store (finallyLockKey s.id) },
            TPC.finalize (k + 1) r)
      | none => (st, TPC.done r)
  | TPC.done r => (st, TPC.done r)

/-- A configuration of two concurrent `bookSeats` calls A and B over the
shared state. -/
structure Config where
  st : BSState
  pcA : TPC
  pcB : TPC
deriving DecidableEq

/-- Interleaving semantics: at each step the scheduler runs one atomic
segment of call A or of call B, or lets the clock advance. -/
inductive Step (sh : Show) (apA apB : AttemptParams) : Config → Config → Prop
  | stepA (c : Config) :
      Step sh apA apB c
        ⟨(attemptStep sh apA c.st c.pcA).1, (attemptStep sh apA c.st c.pcA).2,
          c.pcB⟩
  | stepB (c : Config) :
      Step sh apA apB c
        ⟨(attemptStep sh apB c.st c.pcB).1, c.pcA,
          (attemptStep sh apB c.st c.pcB).2⟩
  | tick (c : Config) (d : Nat) :
      Step sh apA apB c ⟨{ c.st with now := c.st.now + d }, c.pcA, c.pcB⟩

/-- Both calls at their entry point over the initial shared state. -/
def initConfig (store0 : Store) (seats0 : List Seat)
    (bookings0 : List Booking) (now0 : Nat) : Config :=
  ⟨⟨store0, seats0, bookings0, now0⟩, TPC.acquiring 0, TPC.acquiring 0⟩

/-- The call has passed its atomic commit point with a successful result
(it is in its `finally` loop or returned, carrying `Except.ok`). -/
def committedOk : TPC → Prop
  | TPC.finalize _ (Except.ok _) => True
  | TPC.done (Except.ok _) => True
  | _ => False

/-- The result a call is carrying once its commit point is passed. -/
def tpcResult : TPC → Option (Except BookErr Booking)
  | TPC.finalize _ r => some r
  | TPC.done r => some r
  | _ => none

/-- Some seat with the given id is in the shared array. -/
def idPresent (seats : List Seat) (sid : String) : Prop :=
  ∃ s ∈ seats, s.id = sid

/-- Some seat with the given id is in the shared array with status
`BOOKED`. -/
def bookedWitness (seats : List Seat) (sid : String) : Prop :=
  ∃ s ∈ seats, s.id = sid ∧ s.status = SeatStatus.BOOKED

/-- Mutual-exclusion invariant for a seat id `sid` requested by both calls:
a seat with id `sid` always exists; a call that committed successfully
implies the seat is `BOOKED`; the two calls never both commit successfully;
and no call ever carries the (unreachable) `SeatAlreadyBookedError`. -/
structure MutexInv (sid : String) (c : Config) : Prop where
  present : idPresent c.st.seats sid
  okA : committedOk c.pcA → bookedWitness c.st.seats sid
  okB : committedOk c.pcB → bookedWitness c.st.seats sid
  excl : ¬(committedOk c.pcA ∧ committedOk c.pcB)
  errA : tpcResult c.pcA ≠ some (Except.error BookErr.SeatAlreadyBookedError)
  errB : tpcResult c.pcB ≠ some (Except.error BookErr.SeatAlreadyBookedError)

/-! ### Shapes of the atomic steps -/

theorem attemptStep_acquiring_some_shape (sh : Show) (ap : AttemptParams)
    (st : BSState) (k : Nat) (s : Seat)
    (hk : (selectedSeats st.seats ap.seatIds)[k]? = some s) :
    (attemptStep sh ap st (TPC.acquiring k)).1.seats = st.seats
    ∧ ((attemptStep sh ap st (TPC.acquiring k)).2 = TPC.acquiring (k + 1)
      ∨ (attemptStep sh ap st (TPC.acquiring k)).2 = TPC.cleanup 0 s) := by
  cases hr : (acquireLock st.store st.now (lockKey sh.id s.id)
      ap.lockToken).1 with
  | true =>
      simp only [attemptStep, hk, hr, eq_self_iff_true, if_true]
      exact ⟨trivial, Or.inl trivial⟩
  | false =>
      simp only [attemptStep, hk, hr, Bool.false_eq_true, if_false]
      exact ⟨trivial, Or.inr trivial⟩

theorem attemptStep_commit_unavail (sh : Show) (ap : AttemptParams)
    (st : BSState) (k : Nat)
    (hk : (selectedSeats st.seats ap.seatIds)[k]? = none)
    (hval : (selectedSeats st.seats ap.seatIds).any
        (fun s => decide (s.status ≠ SeatStatus.AVAILABLE)) = true) :
    attemptStep sh ap st (TPC.acquiring k)
      = (st, TPC.finalize 0 (Except.error BookErr.SeatUnavailableError)) := by
  simp only [attemptStep, hk, hval, eq_self_iff_true, if_true]

theorem attemptStep_commit_success (sh : Show) (ap : AttemptParams)
    (st : BSState) (k : Nat)
    (hk : (selectedSeats st.seats ap.seatIds)[k]? = none)
    (hval : (selectedSeats st.seats ap.seatIds).any
        (fun s => decide (s.status ≠ SeatStatus.AVAILABLE)) = false) :
    attemptStep sh ap st (TPC.acquiring k)
      = ({ st with
            seats := st.seats.map (fun s =>
              if ap.seatIds.contains s.id then
                { s with status := SeatStatus.BOOKED } else s),
            bookings := st.bookings ++ [Booking.confirm
              { id := ap.bookingId, userId := ap.userId, showId := sh.id,
                seats := selectedSeats (st.seats.map (fun s =>
                  if ap.seatIds.contains s.id then
                    { s with status := SeatStatus.BOOKED } else s)) ap.seatIds,
                totalPrice := (selectedSeats st.seats ap.seatIds).length
                  * sh.pricePerSeat,
                status := BookingStatus.PENDING }] },
        TPC.finalize 0 (Except.ok (Booking.confirm
          { id := ap.bookingId, userId := ap.userId, showId := sh.id,
            seats := selectedSeats (st.seats.map (fun s =>
              if ap.seatIds.contains s.id then
                { s with status := SeatStatus.BOOKED } else s)) ap.seatIds,
            totalPrice := (selectedSeats st.seats ap.seatIds).length
              * sh.pricePerSeat,
            status := BookingStatus.PENDING }))) := by
  have hbook := bookEachSelected_of_all_avail
    (fun s => ap.seatIds.contains s.id) st.seats
    (validation_false_all_avail hval)
  simp only [attemptStep, hk]
  rw [hval, if_neg Bool.false_ne_true, hbook]
  rfl

theorem attemptStep_cleanup_some (sh : Show) (ap : AttemptParams)
    (st : BSState) (k : Nat) (c s : Seat)
    (hk : (selectedSeats st.seats ap.seatIds)[k]? = some s) :
    attemptStep sh ap st (TPC.cleanup k c)
      = ({ st with store := releaseLock st.store (lockKey sh.id s.id) },
        TPC.cleanup (k + 1) c) := by
  simp only [attemptStep, hk]

theorem attemptStep_cleanup_none (sh : Show) (ap : AttemptParams)
    (st : BSState) (k : Nat) (c : Seat)
    (hk : (selectedSeats st.seats ap.seatIds)[k]? = none) :
    attemptStep sh ap st (TPC.cleanup k c)
      = (st, TPC.done (Except.error
          (BookErr.SeatLockContentionError c.seatNumber))) := by
  simp only [attemptStep, hk]

theorem attemptStep_finalize_some (sh : Show) (ap : AttemptParams)
    (st : BSState) (k : Nat) (r : Except BookErr Booking) (s : Seat)
    (hk : (selectedSeats st.seats ap.seatIds)[k]? = some s) :
    attemptStep sh ap st (TPC.finalize k r)
      = ({ st with store := releaseLock st.store (finallyLockKey s.id) },
        TPC.finalize (k + 1) r) := by
  simp only [attemptStep, hk]

theorem attemptStep_finalize_none (sh : Show) (ap : AttemptParams)
    (st : BSState) (k : Nat) (r : Except BookErr Booking)
    (hk : (selectedSeats st.seats ap.seatIds)[k]? = none) :
    attemptStep sh ap st (TPC.finalize k r) = (st, TPC.done r) := by
  simp only [attemptStep, hk]

/-! ### Transfer lemmas for the commit step's seat mutation -/

theorem idPresent_map_booked {seats : List Seat} {sid : String}
    (ids : List String) (h : idPresent seats sid) :
    idPresent (seats.map (fun s =>
      if ids.contains s.id then { s with status := SeatStatus.BOOKED }
      else s)) sid := by
  obtain ⟨s, hs, hid⟩ := h
  refine ⟨_, List.mem_map.mpr ⟨s, hs, rfl⟩, ?_⟩
  by_cases hp : ids.contains s.id = true
  · simp only [hp, if_true]; exact hid
  · simp only [hp, if_false]; exact hid

theorem bookedWitness_map {seats : List Seat} {sid : String}
    (ids : List String) (h : bookedWitness seats sid) :
    bookedWitness (seats.map (fun s =>
      if ids.contains s.id then { s with status := SeatStatus.BOOKED }
      else s)) sid := by
  obtain ⟨s, hs, hid, hstat⟩ := h
  refine ⟨_, List.mem_map.mpr ⟨s, hs, rfl⟩, ?_⟩
  by_cases hp : ids.contains s.id = true
  · simp only [hp, if_true]; exact ⟨hid, trivial⟩
  · simp only [hp, if_false]; exact ⟨hid, hstat⟩

theorem bookedWitness_map_of_present {seats : List Seat} {sid : String}
    {ids : List String} (hmem : ids.contains sid = true)
    (h : idPresent seats sid) :
    bookedWitness (seats.map (fun s =>
      if ids.contains s.id then { s with status := SeatStatus.BOOKED }
      else s)) sid := by
  obtain ⟨s, hs, hid⟩ := h
  have hp : ids.contains s.id = true := by rw [hid]; exact hmem
  refine ⟨_, List.mem_map.mpr ⟨s, hs, rfl⟩, ?_⟩
  simp only [hp, if_true]
  exact ⟨hid, trivial⟩

theorem any_true_of_bookedWitness {seats : List Seat} {ids : List String}
    {sid : String} (hmem : ids.contains sid = true)
    (hw : bookedWitness seats sid) :
    (selectedSeats seats ids).any
      (fun s => decide (s.status ≠ SeatStatus.AVAILABLE)) = true := by
  obtain ⟨s, hs, hid, hstat⟩ := hw
  refine List.any_eq_true.mpr ⟨s, List.mem_filter.mpr ⟨hs, ?_⟩, ?_⟩
  · rw [hid]; exact hmem
  · rw [hstat]; decide

/-! ### The per-step preservation lemma -/

/-- Effects of one atomic step of a call whose request contains the seat id
`sid`: the seat array keeps any existing seat with id `sid` and keeps it
`BOOKED` once `BOOKED`; a call past its successful commit stays past it and
no longer touches the seat array; a call can newly commit only by booking
the seat with id `sid`; it cannot newly commit at all while that seat is
already `BOOKED`; and it never produces `SeatAlreadyBookedError`. -/
theorem attempt_preserve (sh : Show) (ap : AttemptParams) (st : BSState)
    (pc : TPC) (sid : String) (hmem : ap.seatIds.contains sid = true) :
    (idPresent st.seats sid → idPresent (attemptStep sh ap st pc).1.seats sid)
    ∧ (bookedWitness st.seats sid →
        bookedWitness (attemptStep sh ap st pc).1.seats sid)
    ∧ (committedOk pc → committedOk (attemptStep sh ap st pc).2
        ∧ (attemptStep sh ap st pc).1.seats = st.seats)
    ∧ (¬committedOk pc → committedOk (attemptStep sh ap st pc).2 →
        idPresent st.seats sid →
        bookedWitness (attemptStep sh ap st pc).1.seats sid)
    ∧ (bookedWitness st.seats sid → ¬committedOk pc →
        ¬committedOk (attemptStep sh ap st pc).2)
    ∧ (tpcResult pc ≠ some (Except.error BookErr.SeatAlreadyBookedError) →
        tpcResult (attemptStep sh ap st pc).2
          ≠ some (Except.error BookErr.SeatAlreadyBookedError)) := by
  cases pc with
  | acquiring k =>
      cases hk : (selectedSeats st.seats ap.seatIds)[k]? with
      | some s =>
          obtain ⟨hseats, hpc⟩ :=
            attemptStep_acquiring_some_shape sh ap st k s hk
          refine ⟨?_, ?_, ?_, ?_, ?_, ?_⟩
          · intro h; rw [hseats]; exact h
          · intro h; rw [hseats]; exact h
          · intro h; exact h.elim
          · intro _ hok _
            rcases hpc with h2 | h2 <;> rw [h2] at hok <;> exact hok.elim
          · intro _ _
            rcases hpc with h2 | h2 <;> rw [h2] <;> exact fun hok => hok.elim
          · intro _
            rcases hpc with h2 | h2 <;> rw [h2] <;>
              exact fun hres => Option.noConfusion hres
      | none =>
          cases hval : (selectedSeats st.seats ap.seatIds).any
              (fun s => decide (s.status ≠ SeatStatus.AVAILABLE)) with
          | true =>
              rw [attemptStep_commit_unavail sh ap st k hk hval]
              refine ⟨fun h => h, fun h => h, fun h => h.elim, ?_, ?_, ?_⟩
              · intro _ hok _; exact hok.elim
              · intro _ _; exact fun hok => hok.elim
              · intro _ hres
                exact BookErr.noConfusion
                  (Except.error.inj (Option.some.inj hres))
          | false =>
              rw [attemptStep_commit_success sh ap st k hk hval]
              refine ⟨?_, ?_, fun h => h.elim, ?_, ?_, ?_⟩
              · intro h; exact idPresent_map_booked ap.seatIds h
              · intro h; exact bookedWitness_map ap.seatIds h
              · intro _ _ hpres
                exact bookedWitness_map_of_present hmem hpres
              · intro hw _ _
                have hcontra := any_true_of_bookedWitness hmem hw
                rw [hval] at hcontra
                cases hcontra
              · intro _ hres
                exact Except.noConfusion (Option.some.inj hres)
  | cleanup k c =>
      cases hk : (selectedSeats st.seats ap.seatIds)[k]? with
      | some s =>
          rw [attemptStep_cleanup_some sh ap st k c s hk]
          refine ⟨fun h => h, fun h => h, fun h => h.elim, ?_, ?_, ?_⟩
          · intro _ hok _; exact hok.elim
          · intro _ _; exact fun hok => hok.elim
          · intro _; exact fun hres => Option.noConfusion hres
      | none =>
          rw [attemptStep_cleanup_none sh ap st k c hk]
          refine ⟨fun h => h, fun h => h, fun h => h.elim, ?_, ?_, ?_⟩
          · intro _ hok _; exact hok.elim
          · intro _ _; exact fun hok => hok.elim
          · intro _ hres
            exact BookErr.noConfusion (Except.error.inj (Option.some.inj hres))
  | finalize k r =>
      cases hk : (selectedSeats st.seats ap.seatIds)[k]? with
      | some s =>
          rw [attemptStep_finalize_some sh ap st k r s hk]
          refine ⟨fun h => h, fun h => h, ?_, ?_, ?_, fun h => h⟩
          · intro h
            cases r with
            | ok b => exact ⟨True.intro, rfl⟩
            | error e => exact h.elim
          · intro h1 hok _
            cases r with
            | ok b => exact (h1 True.intro).elim
            | error e => exact hok.elim
          · intro _ h1
            cases r with
            | ok b => exact fun _ => h1 True.intro
            | error e => exact fun hok => hok.elim
      | none =>
          rw [attemptStep_finalize_none sh ap st k r hk]
          refine ⟨fun h => h, fun h => h, ?_, ?_, ?_, fun h => h⟩
          · intro h
            cases r with
            | ok b => exact ⟨True.intro, rfl⟩
            | error e => exact h.elim
          · intro h1 hok _
            cases r with
            | ok b => exact (h1 True.intro).elim
            | error e => exact hok.elim
          · intro _ h1
            cases r with
            | ok b => exact fun _ => h1 True.intro
            | error e => exact fun hok => hok.elim
  | done r =>
      refine ⟨fun h => h, fun h => h, fun h => ⟨h, rfl⟩, ?_, ?_, fun h => h⟩
      · intro h1 hok _; exact (h1 hok).elim
      · intro _ h1; exact h1

theorem mutexInv_step (sh : Show) (apA apB : AttemptParams) (sid : String)
    (hA : apA.seatIds.contains sid = true)
    (hB : apB.seatIds.contains sid = true)
    {c c' : Config} (hstep : Step sh apA apB c c')
    (hinv : MutexInv sid c) : MutexInv sid c' := by
  cases hstep with
  | stepA =>
      obtain ⟨p1, p2, p3, p4, p5, p6⟩ :=
        attempt_preserve sh apA c.st c.pcA sid hA
      refine ⟨p1 hinv.present, ?_, ?_, ?_, p6 hinv.errA, hinv.errB⟩
      · intro h
        by_cases hc : committedOk c.pcA
        · exact (p3 hc).2.symm ▸ hinv.okA hc
        · exact p4 hc h hinv.present
      · intro h
        exact p2 (hinv.okB h)
      · rintro ⟨ha, hb⟩
        by_cases hc : committedOk c.pcA
        · exact hinv.excl ⟨hc, hb⟩
        · exact p5 (hinv.okB hb) hc ha
  | stepB =>
      obtain ⟨p1, p2, p3, p4, p5, p6⟩ :=
        attempt_preserve sh apB c.st c.pcB sid hB
      refine ⟨p1 hinv.present, ?_, ?_, ?_, hinv.errA, p6 hinv.errB⟩
      · intro h
        exact p2 (hinv.okA h)
      · intro h
        by_cases hc : committedOk c.pcB
        · exact (p3 hc).2.symm ▸ hinv.okB hc
        · exact p4 hc h hinv.present
      · rintro ⟨ha, hb⟩
        by_cases hc : committedOk c.pcB
        · exact hinv.excl ⟨ha, hc⟩
        · exact p5 (hinv.okA ha) hc hb
  | tick d =>
      exact ⟨hinv.present, hinv.okA, hinv.okB, hinv.excl, hinv.errA,
        hinv.errB⟩

theorem mutexInv_reachable (sh : Show) (apA apB : AttemptParams)
    (sid : String) (hA : apA.seatIds.contains sid = true)
    (hB : apB.seatIds.contains sid = true) {c0 c : Config}
    (hreach : Relation.ReflTransGen (Step sh apA apB) c0 c)
    (h0 : MutexInv sid c0) : MutexInv sid c := by
  induction hreach with
  | refl => exact h0
  | tail _ hstep ih => exact mutexInv_step sh apA apB sid hA hB hstep ih

/-! ## Claim about concurrent calls (C2) -/

/-- Claim C2: for any interleaved execution of two concurrent `bookSeats`
calls on the same show whose requested seat-id lists share an id `sid`
resolving to a seat of the screen, at most one of the calls books that
seat: if call A returns successfully (its booking covers the shared seat),
then call B's result is `SeatLockContentionError` or
`SeatUnavailableError`. -/
theorem bookSeats_mutual_exclusion (sh : Show) (apA apB : AttemptParams)
    (store0 : Store) (seats0 : List Seat) (bookings0 : List Booking)
    (now0 : Nat) (sid : String) (c : Config) (bA : Booking)
    (rB : Except BookErr Booking)
    (hA : apA.seatIds.contains sid = true)
    (hB : apB.seatIds.contains sid = true)
    (hsid : idPresent seats0 sid)
    (hreach : Relation.ReflTransGen (Step sh apA apB)
      (initConfig store0 seats0 bookings0 now0) c)
    (hdoneA : c.pcA = TPC.done (Except.ok bA))
    (hdoneB : c.pcB = TPC.done rB) :
    (∃ n, rB = Except.error (BookErr.SeatLockContentionError n))
    ∨ rB = Except.error BookErr.SeatUnavailableError := by
  have h0 : MutexInv sid (initConfig store0 seats0 bookings0 now0) := by
    refine ⟨hsid, fun h => h.elim, fun h => h.elim, ?_, ?_, ?_⟩
    · rintro ⟨h, _⟩; exact h.elim
    · exact fun h => Option.noConfusion h
    · exact fun h => Option.noConfusion h
  have hinv := mutexInv_reachable sh apA apB sid hA hB hreach h0
  have hokA : committedOk c.pcA := by rw [hdoneA]; exact True.intro
  have hnB : ¬ committedOk c.pcB := fun h => hinv.excl ⟨hokA, h⟩
  cases rB with
  | ok b =>
      exfalso
      apply hnB
      rw [hdoneB]
      exact True.intro
  | error e =>
      cases e with
      | SeatLockContentionError n => exact Or.inl ⟨n, rfl⟩
      | SeatUnavailableError => exact Or.inr rfl
      | SeatAlreadyBookedError =>
          exfalso
          apply hinv.errB
          rw [hdoneB]
          rfl

/-! ### A concrete interleaved execution for the mutual-exclusion claim -/

def wShow : Show := ⟨"show1", 300⟩

def wApA : AttemptParams := ⟨"u1", "b1", "tokA", ["s1"]⟩

def wApB : AttemptParams := ⟨"u2", "b2", "tokB", ["s1"]⟩

def wStepA (c : Config) : Config :=
  ⟨(attemptStep wShow wApA c.st c.pcA).1, (attemptStep wShow wApA c.st c.pcA).2,
    c.pcB⟩

def wStepB (c : Config) : Config :=
  ⟨(attemptStep wShow wApB c.st c.pcB).1, c.pcA,
    (attemptStep wShow wApB c.st c.pcB).2⟩

def wC0 : Config := initConfig [] [⟨"s1", "A1", SeatStatus.AVAILABLE⟩] [] 0

def wCF : Config :=
  wStepB (wStepB (wStepB (wStepA (wStepA (wStepA (wStepA wC0))))))

def wBA : Booking :=
  ⟨"b1", "u1", "show1", [⟨"s1", "A1", SeatStatus.BOOKED⟩], 300,
    BookingStatus.CONFIRMED⟩

/-- Claim C2 witness: in the execution where call A (seat ids `["s1"]`)
runs to completion and then call B (also `["s1"]`) runs, A returns a
Booking covering seat `s1` and B fails with `SeatLockContentionError`;
the theorem then forces B's result to be one of the two claimed errors. -/
theorem bookSeats_mutual_exclusion_instance :
    (∃ n, (Except.error (BookErr.SeatLockContentionError "A1") :
        Except BookErr Booking)
      = Except.error (BookErr.SeatLockContentionError n))
    ∨ (Except.error (BookErr.SeatLockContentionError "A1") :
        Except BookErr Booking)
      = Except.error BookErr.SeatUnavailableError :=
  bookSeats_mutual_exclusion wShow wApA wApB []
    [⟨"s1", "A1", SeatStatus.AVAILABLE⟩] [] 0 "s1" wCF wBA
    (Except.error (BookErr.SeatLockContentionError "A1"))
    (by decide) (by decide)
    ⟨⟨"s1", "A1", SeatStatus.AVAILABLE⟩, by decide, rfl⟩
    (Relation.ReflTransGen.head (Step.stepA wC0)
      (Relation.ReflTransGen.head (Step.stepA (wStepA wC0))
        (Relation.ReflTransGen.head (Step.stepA (wStepA (wStepA wC0)))
          (Relation.ReflTransGen.head
            (Step.stepA (wStepA (wStepA (wStepA wC0))))
            (Relation.ReflTransGen.head
              (Step.stepB (wStepA (wStepA (wStepA (wStepA wC0)))))
              (Relation.ReflTransGen.head
                (Step.stepB (wStepB (wStepA (wStepA (wStepA (wStepA wC0))))))
                (Relation.ReflTransGen.head
                  (Step.stepB (wStepB (wStepB
                    (wStepA (wStepA (wStepA (wStepA wC0)))))))
                  Relation.ReflTransGen.refl)))))))
    (by decide) (by decide)

end MovieTicketBooking